import Mathlib

/-!
Verification of the Gemini explicit-cache management service
(`backend/core/services/geminiCache.py`).

The development shallowly embeds the service:

* Python values that can appear inside a tool schema (`Dict[str, Any]`) are
  modelled by the inductive type `PyVal` (strings, integers, booleans, `None`,
  lists, dicts; floats are not needed by any claim).
* `json.dumps(v, sort_keys=True)` with its default separators and
  `ensure_ascii=True` escaping is modelled by `dumps` (first every dict has its
  keys sorted by `sortVal`, then `dumpsRaw` serializes).
* `_compute_prefix_hash` builds the list `content_parts` and joins it with
  `"|"`.  The final `hashlib.sha256(content_str.encode("utf-8")).hexdigest()`
  step is modelled as the identity on the canonical string `content_str`:
  SHA-256 is a deterministic function of its input, so every equality of
  canonical strings transfers to an equality of real fingerprints, and under
  the standard collision-resistance assumption (which the specification itself
  invokes with "with overwhelming probability") every inequality transfers as
  well.  All fingerprint claims are therefore settled on the pre-hash byte
  sequence.
* Timestamps (Python `time.time()` floats) are modelled as rationals; every
  operation the service performs on them (adding or subtracting whole-second
  quantities, order comparison) is exact.
* The mutable registry `self._cache_name_map : Dict[str, Tuple[str, float]]`
  is modelled as an association list with dict semantics (`lookupMap`,
  `insertMap`), and each method takes the registry and the current time as
  explicit arguments and returns the new registry where the source mutates it.
* The external collaborators are modelled by explicit parameters:
  `available` (`gemini_client.is_available()`), `create_result`
  (`genai.caches.create` returning a handle, or `none` when it raises — the
  `except Exception` branch), and `delete_ok` (`genai.caches.delete`
  succeeding or raising).  `GocResult.create_calls` counts how many times the
  provider `create` call is issued.
-/

namespace GeminiCache

/-- Python values that can occur as a tool-schema field value (`Dict[str, Any]`
entries) or as an element of the `tools` list.  `dict` is an association list
of string keys (Python dict keys are unique). -/
inductive PyVal where
  | str : String → PyVal
  | int : Int → PyVal
  | bool : Bool → PyVal
  | null : PyVal
  | list : List PyVal → PyVal
  | dict : List (String × PyVal) → PyVal
deriving Repr

/-- Lower-case hexadecimal digit, as produced by `json.dumps` escapes. -/
def hexDigit (n : Nat) : Char :=
  if n < 10 then Char.ofNat (48 + n) else Char.ofNat (87 + n)

/-- The escape `\uXXXX` for a code unit `n < 0x10000`. -/
def uEscape (n : Nat) : String :=
  "\\u" ++ String.mk [hexDigit (n / 4096 % 16), hexDigit (n / 256 % 16),
    hexDigit (n / 16 % 16), hexDigit (n % 16)]

/-- How `json.dumps` (default `ensure_ascii=True`) renders one character of a
string: the quote and backslash and the short control escapes are backslash
escaped, other control characters and all non-ASCII characters become
`\uXXXX` (a surrogate pair above `0xFFFF`), printable ASCII is kept. -/
def escapeChar (c : Char) : String :=
  let n := c.toNat
  if c = '"' then "\\\""
  else if c = '\\' then "\\\\"
  else if c = '\n' then "\\n"
  else if c = '\t' then "\\t"
  else if c = '\r' then "\\r"
  else if n = 8 then "\\b"
  else if n = 12 then "\\f"
  else if n < 32 then uEscape n
  else if n < 128 then String.singleton c
  else if n < 65536 then uEscape n
  else uEscape (55296 + (n - 65536) / 1024) ++ uEscape (56320 + (n - 65536) % 1024)

/-- A JSON string literal as produced by `json.dumps`. -/
def pyQuote (s : String) : String :=
  "\"" ++ String.join (s.data.map escapeChar) ++ "\""

/-- Code-point lexicographic comparison of character lists; this is exactly
how Python compares two strings. -/
def charsLe : List Char → List Char → Bool
  | [], _ => true
  | _ :: _, [] => false
  | a :: as, b :: bs =>
    if a.toNat < b.toNat then true
    else if b.toNat < a.toNat then false
    else charsLe as bs

/-- Python string comparison `a <= b` (code-point lexicographic). -/
def pyStrLe (a b : String) : Bool :=
  charsLe a.data b.data

instance decRelPyStrLe : DecidableRel (fun a b : String => pyStrLe a b = true) :=
  fun _ _ => instDecidableEqBool _ _

instance decRelPairLe : DecidableRel (fun a b : String × PyVal => pyStrLe a.1 b.1 = true) :=
  fun _ _ => instDecidableEqBool _ _

/-- Python `sorted` on strings (code-point lexicographic, a stable sort). -/
def sortStrings (l : List String) : List String :=
  l.insertionSort (fun a b => pyStrLe a b = true)

/-- Sorting the key/value pairs of a dict by key, as `sort_keys=True` (and the
`sorted(tool.items())` comprehension) does.  Keys of a Python dict are
distinct, so stability is irrelevant. -/
def sortPairs (kvs : List (String × PyVal)) : List (String × PyVal) :=
  kvs.insertionSort (fun a b => pyStrLe a.1 b.1 = true)

mutual

/-- Recursively sort every dict of a value by key; this is the effect of
`sort_keys=True` on the emitted serialization. -/
def sortVal : PyVal → PyVal
  | PyVal.str s => PyVal.str s
  | PyVal.int n => PyVal.int n
  | PyVal.bool b => PyVal.bool b
  | PyVal.null => PyVal.null
  | PyVal.list xs => PyVal.list (sortValList xs)
  | PyVal.dict kvs => PyVal.dict (sortPairs (sortValPairs kvs))

/-- Pointwise `sortVal` over a list. -/
def sortValList : List PyVal → List PyVal
  | [] => []
  | x :: xs => sortVal x :: sortValList xs

/-- Pointwise `sortVal` over the values of an association list. -/
def sortValPairs : List (String × PyVal) → List (String × PyVal)
  | [] => []
  | (k, v) :: rest => (k, sortVal v) :: sortValPairs rest

end

mutual

/-- Serialization of a value with the default `json.dumps` separators
(`", "` between items, `": "` after a key); dict keys are emitted in the
order in which they appear (sorting is applied beforehand by `sortVal`). -/
def dumpsRaw : PyVal → String
  | PyVal.str s => pyQuote s
  | PyVal.int n => toString n
  | PyVal.bool b => if b then "true" else "false"
  | PyVal.null => "null"
  | PyVal.list xs => "[" ++ dumpsElems xs ++ "]"
  | PyVal.dict kvs => "\x7b" ++ dumpsPairs kvs ++ "\x7d"

/-- Comma-separated serialization of list elements. -/
def dumpsElems : List PyVal → String
  | [] => ""
  | [x] => dumpsRaw x
  | x :: y :: rest => dumpsRaw x ++ ", " ++ dumpsElems (y :: rest)

/-- Comma-separated serialization of dict entries. -/
def dumpsPairs : List (String × PyVal) → String
  | [] => ""
  | [(k, v)] => pyQuote k ++ ": " ++ dumpsRaw v
  | (k, v) :: p :: rest => pyQuote k ++ ": " ++ dumpsRaw v ++ ", " ++ dumpsPairs (p :: rest)

end

/-- The model of `json.dumps(v, sort_keys=True)`. -/
def dumps (v : PyVal) : String :=
  dumpsRaw (sortVal v)

/-- The `normalized_tools` list built by `_compute_prefix_hash`: walk the
`tools` list in order, keep exactly the elements that are dicts
(`isinstance(tool, dict)`), and serialize each with sorted keys. -/
def normalizedTools : List PyVal → List String
  | [] => []
  | PyVal.dict kvs :: rest => dumps (PyVal.dict kvs) :: normalizedTools rest
  | _ :: rest => normalizedTools rest

/-- The dict elements of a `tools` list, in order (the elements that survive
the `isinstance(tool, dict)` filter). -/
def dictsOf : List PyVal → List (List (String × PyVal))
  | [] => []
  | PyVal.dict kvs :: rest => kvs :: dictsOf rest
  | _ :: rest => dictsOf rest

/-- Python `str.join`: `strJoin sep l` interleaves `sep` between the elements
of `l`. -/
def strJoin (sep : String) : List String → String
  | [] => ""
  | [s] => s
  | s :: t :: rest => s ++ sep ++ strJoin sep (t :: rest)

/-- `json.dumps` of a plain list of strings (as applied to
`normalized_tools` and to `sorted(static_docs)`; `sort_keys=True` has no
effect on a list of strings). -/
def dumpsStrList (l : List String) : String :=
  "[" ++ strJoin ", " (l.map pyQuote) ++ "]"

/-- The `system:` segment: appended exactly when `system_instruction` is
truthy, i.e. present and non-empty. -/
def sysSegs : Option String → List String
  | some s => if s.isEmpty then [] else ["system:" ++ s]
  | none => []

/-- The `tools:` segment: appended exactly when `tools` is truthy (present and
a non-empty list); its payload serializes the `normalized_tools` list in input
order. -/
def toolSegs : Option (List PyVal) → List String
  | some ts => if ts.isEmpty then [] else ["tools:" ++ dumpsStrList (normalizedTools ts)]
  | none => []

/-- The `docs:` segment: appended exactly when `static_docs` is truthy
(present and a non-empty list); its payload serializes the sorted document
strings. -/
def docSegs : Option (List String) → List String
  | some ds => if ds.isEmpty then [] else ["docs:" ++ dumpsStrList (sortStrings ds)]
  | none => []

/-- The canonical pre-hash string built by `_compute_prefix_hash`:
`content_parts` starts with the model name, conditionally gains the
`system:`, `tools:` and `docs:` segments, and is joined with `"|"`.  The
SHA-256 hex digest applied to this string in the source is modelled as the
identity (see the module docstring). -/
def _compute_prefix_hash (model : String) (system_instruction : Option String)
    (tools : Option (List PyVal)) (static_docs : Option (List String)) : String :=
  strJoin "|" (model :: (sysSegs system_instruction ++ toolSegs tools ++ docSegs static_docs))

/-- The registry `self._cache_name_map : Dict[str, Tuple[str, float]]`
(fingerprint to `(cache_name, expires_at)`), modelled as an association list
with distinct keys; timestamps are rationals (exact model of the float
arithmetic the service performs). -/
abbrev CacheMap := List (String × String × ℚ)

/-- Python dict lookup `map[key]` / `key in map` on the registry. -/
def lookupMap : CacheMap → String → Option (String × ℚ)
  | [], _ => none
  | e :: rest, k => if e.1 = k then some e.2 else lookupMap rest k

/-- Python dict update `map[key] = value`: overwrite the entry for the key in
place if present, otherwise append a new entry. -/
def insertMap : CacheMap → String → String × ℚ → CacheMap
  | [], k, v => [(k, v)]
  | e :: rest, k, v => if e.1 = k then (k, v) :: rest else e :: insertMap rest k v

/-- `self._default_ttl = 86400` (24 hours in seconds). -/
def _default_ttl : ℚ := 86400

/-- `self._cache_expiry_buffer = 300` (5 minutes). -/
def _cache_expiry_buffer : ℚ := 300

/-- `_is_cache_valid`: a key is valid iff it is in the registry and the
current time is strictly before its stored `expires_at`. -/
def _is_cache_valid (m : CacheMap) (now : ℚ) (cache_key : String) : Bool :=
  match lookupMap m cache_key with
  | none => false
  | some (_, expires_at) => decide (now < expires_at)

/-- `_get_cached_name`: the stored cache name, provided the entry is valid. -/
def _get_cached_name (m : CacheMap) (now : ℚ) (cache_key : String) : Option String :=
  if _is_cache_valid m now cache_key then
    match lookupMap m cache_key with
    | some (cache_name, _) => some cache_name
    | none => none
  else none

/-- `_store_cache_name`: store the handle under the key with
`expires_at = time.time() + ttl_seconds - self._cache_expiry_buffer`. -/
def _store_cache_name (m : CacheMap) (now : ℚ) (cache_key : String)
    (cache_name : String) (ttl_seconds : ℚ) : CacheMap :=
  insertMap m cache_key (cache_name, now + ttl_seconds - _cache_expiry_buffer)

/-- Result of one `get_or_create_prefix_cache` call: the returned value
(`Optional[str]`), the registry afterwards, and how many times the provider
`genai.caches.create` call was issued during the call. -/
structure GocResult where
  ret : Option String
  state : CacheMap
  create_calls : Nat
deriving Repr, DecidableEq

/-- The `try: ... genai.caches.create ... except Exception: return None` tail
of `get_or_create_prefix_cache`.  `create_result = some name` models the
provider returning `cache.name`; `create_result = none` models the provider
raising, in which case the exception is swallowed, nothing is stored, and the
call returns `None`.  Either way exactly one provider call is made. -/
def _create_new (m : CacheMap) (now : ℚ) (cache_key : String)
    (create_result : Option String) (ttl : ℚ) : GocResult :=
  match create_result with
  | some cache_name => ⟨some cache_name, _store_cache_name m now cache_key cache_name ttl, 1⟩
  | none => ⟨none, m, 1⟩

/-- `get_or_create_prefix_cache(model, contents, system_instruction, tools,
static_docs, ttl_seconds)`.  `available` models
`gemini_client.is_available()`.  Note that the hit check is the Python
truthiness test `if cached_name:`, so a stored empty-string handle is treated
like a miss; `contents` does not participate in the fingerprint. -/
def get_or_create_prefix_cache (m : CacheMap) (now : ℚ) (available : Bool)
    (create_result : Option String) (model : String) (contents : List PyVal)
    (system_instruction : Option String) (tools : Option (List PyVal))
    (static_docs : Option (List String)) (ttl_seconds : Option ℚ) : GocResult :=
  if available then
    let ttl := ttl_seconds.getD _default_ttl
    let cache_key := _compute_prefix_hash model system_instruction tools static_docs
    match _get_cached_name m now cache_key with
    | some cached_name =>
      if cached_name.isEmpty then _create_new m now cache_key create_result ttl
      else ⟨some cached_name, m, 0⟩
    | none => _create_new m now cache_key create_result ttl
  else ⟨none, m, 0⟩

/-- Whether a `get_or_create_prefix_cache` call on this registry reaches the
creation branch (no hit, or a hit whose stored handle is falsy). -/
def _reaches_create (m : CacheMap) (now : ℚ) (cache_key : String) : Bool :=
  match _get_cached_name m now cache_key with
  | some cached_name => cached_name.isEmpty
  | none => true

/-- `invalidate_cache(cache_name)`: ask the provider to delete the handle
(`delete_ok` models `genai.caches.delete` succeeding or raising).  On success
remove every registry entry holding this handle and return `True`; on failure
swallow the exception, leave the registry untouched and return `False`. -/
def invalidate_cache (m : CacheMap) (delete_ok : Bool) (cache_name : String) :
    Bool × CacheMap :=
  if delete_ok then
    (true, m.filter (fun e => !(e.2.1 == cache_name)))
  else (false, m)

/-- The record returned by `get_cache_stats()`. -/
structure CacheStats where
  total_caches : Nat
  valid_caches : Nat
  expired_caches : Nat
  cache_keys : List String
deriving Repr, DecidableEq

/-- `get_cache_stats()`: count, for each stored record, whether the current
time is strictly before its `expires_at` (valid) or not (expired); the
registry is only read, never changed (in this embedding the function does not
even receive the ability to produce a new registry). -/
def get_cache_stats (m : CacheMap) (now : ℚ) : CacheStats :=
  { total_caches := m.length
    valid_caches := m.countP (fun e => decide (now < e.2.2))
    expired_caches := m.countP (fun e => !decide (now < e.2.2))
    cache_keys := m.map (fun e => e.1) }

/-- The tail a list of segments contributes to a `"|"`-join that already has a
first element: every segment is preceded by one delimiter. -/
def joinTail : List String → String
  | [] => ""
  | s :: rest => "|" ++ s ++ joinTail rest

/-! Basic lemmas about the embedded operations. -/

theorem str_data_inj {a b : String} (h : a.data = b.data) : a = b := by
  cases a; cases b; simp_all

theorem str_cancel_left (a : String) {b c : String} (h : a ++ b = a ++ c) : b = c := by
  apply str_data_inj
  have h2 := congrArg String.data h
  simp only [String.data_append] at h2
  exact List.append_cancel_left h2

theorem str_cancel_right (t : String) {a b : String} (h : a ++ t = b ++ t) : a = b := by
  apply str_data_inj
  have h2 := congrArg String.data h
  simp only [String.data_append] at h2
  exact List.append_cancel_right h2

theorem str_append_assoc (a b c : String) : a ++ b ++ c = a ++ (b ++ c) := by
  apply str_data_inj
  simp [String.data_append, List.append_assoc]

theorem str_empty_append (a : String) : "" ++ a = a := by
  apply str_data_inj
  simp [String.data_append]

theorem str_append_empty (a : String) : a ++ "" = a := by
  apply str_data_inj
  simp [String.data_append]

theorem strJoin_cons (a : String) (l : List String) :
    strJoin "|" (a :: l) = a ++ joinTail l := by
  induction l generalizing a with
  | nil => simp [strJoin, joinTail, str_append_empty]
  | cons b t ih => simp [strJoin, joinTail, ih b, str_append_assoc]

theorem joinTail_append (A B : List String) :
    joinTail (A ++ B) = joinTail A ++ joinTail B := by
  induction A with
  | nil => simp [joinTail, str_empty_append]
  | cons a t ih => simp [joinTail, ih, str_append_assoc]

/-- `_compute_prefix_hash` decomposed as the model name followed by the
delimiter-prefixed optional segments. -/
theorem hash_decomp (model : String) (si : Option String)
    (ts : Option (List PyVal)) (ds : Option (List String)) :
    _compute_prefix_hash model si ts ds =
      model ++ joinTail (sysSegs si ++ toolSegs ts ++ docSegs ds) :=
  strJoin_cons _ _

/-- Recover the payload of a delimiter-prefixed, labelled segment from an
equality of joined strings with a common head and a common tail. -/
theorem seg_payload_cancel (a pre t : String) {x y : String}
    (h : a ++ (("|" ++ (pre ++ x)) ++ t) = a ++ (("|" ++ (pre ++ y)) ++ t)) : x = y := by
  apply str_data_inj
  have h2 := congrArg String.data h
  simp only [String.data_append, List.append_assoc] at h2
  have h3 := List.append_cancel_left h2
  have h4 := List.append_cancel_left h3
  have h5 := List.append_cancel_left h4
  exact List.append_cancel_right h5

/-- Variant of `seg_payload_cancel` with one further common piece between the
head and the labelled segment (used when earlier optional segments precede the
one being compared). -/
theorem seg_payload_cancel₂ (a b pre t : String) {x y : String}
    (h : a ++ (b ++ (("|" ++ (pre ++ x)) ++ t)) = a ++ (b ++ (("|" ++ (pre ++ y)) ++ t))) :
    x = y := by
  apply str_data_inj
  have h2 := congrArg String.data h
  simp only [String.data_append, List.append_assoc] at h2
  have h3 := List.append_cancel_left h2
  have h4 := List.append_cancel_left h3
  have h5 := List.append_cancel_left h4
  have h6 := List.append_cancel_left h5
  exact List.append_cancel_right h6

/-- Variant of `seg_payload_cancel` with two further common pieces before the
labelled segment (used for the last segment, which both earlier optional
segments may precede). -/
theorem seg_payload_cancel₃ (a b c pre t : String) {x y : String}
    (h : a ++ (b ++ (c ++ (("|" ++ (pre ++ x)) ++ t))) =
      a ++ (b ++ (c ++ (("|" ++ (pre ++ y)) ++ t)))) : x = y := by
  apply str_data_inj
  have h2 := congrArg String.data h
  simp only [String.data_append, List.append_assoc] at h2
  have h3 := List.append_cancel_left h2
  have h4 := List.append_cancel_left h3
  have h5 := List.append_cancel_left h4
  have h6 := List.append_cancel_left h5
  have h7 := List.append_cancel_left h6
  exact List.append_cancel_right h7

theorem charsLe_cons_iff (a b : Char) (as bs : List Char) :
    charsLe (a :: as) (b :: bs) = true ↔
      a.toNat < b.toNat ∨ (a.toNat = b.toNat ∧ charsLe as bs = true) := by
  by_cases h1 : a.toNat < b.toNat
  · simp [charsLe, h1]
  · by_cases h2 : b.toNat < a.toNat
    · have h4 : a.toNat ≠ b.toNat := by omega
      simp [charsLe, h1, h2, h4]
    · have h3 : a.toNat = b.toNat := by omega
      simp [charsLe, h1, h2, h3]

theorem charsLe_total : ∀ as bs : List Char, charsLe as bs = true ∨ charsLe bs as = true := by
  intro as
  induction as with
  | nil => intro bs; left; simp [charsLe]
  | cons a as ih =>
    intro bs
    cases bs with
    | nil => right; simp [charsLe]
    | cons b bs =>
      rw [charsLe_cons_iff, charsLe_cons_iff]
      rcases Nat.lt_trichotomy a.toNat b.toNat with h | h | h
      · left; left; exact h
      · rcases ih bs with ht | ht
        · left; right; exact ⟨h, ht⟩
        · right; right; exact ⟨h.symm, ht⟩
      · right; left; exact h

theorem charsLe_trans : ∀ as bs cs : List Char,
    charsLe as bs = true → charsLe bs cs = true → charsLe as cs = true := by
  intro as
  induction as with
  | nil => intro bs cs _ _; simp [charsLe]
  | cons a as ih =>
    intro bs cs hab hbc
    cases bs with
    | nil => simp [charsLe] at hab
    | cons b bs =>
      cases cs with
      | nil => simp [charsLe] at hbc
      | cons c cs =>
        rw [charsLe_cons_iff] at hab hbc ⊢
        rcases hab with h | ⟨he1, ht1⟩
        · rcases hbc with h2 | ⟨he2, ht2⟩
          · left; omega
          · left; omega
        · rcases hbc with h2 | ⟨he2, ht2⟩
          · left; omega
          · right; exact ⟨by omega, ih bs cs ht1 ht2⟩

theorem charsLe_antisymm : ∀ as bs : List Char,
    charsLe as bs = true → charsLe bs as = true → as = bs := by
  intro as
  induction as with
  | nil =>
    intro bs h1 h2
    cases bs with
    | nil => rfl
    | cons b bs => simp [charsLe] at h2
  | cons a as ih =>
    intro bs h1 h2
    cases bs with
    | nil => simp [charsLe] at h1
    | cons b bs =>
      rw [charsLe_cons_iff] at h1 h2
      rcases h1 with h | ⟨he1, ht1⟩
      · rcases h2 with h2 | ⟨he2, ht2⟩ <;> omega
      · rcases h2 with h2 | ⟨he2, ht2⟩
        · omega
        · have hc : a = b := by
            apply Char.eq_of_val_eq
            exact UInt32.ext he1
          rw [hc, ih bs ht1 ht2]

instance : IsTotal String (fun a b => pyStrLe a b = true) :=
  ⟨fun a b => charsLe_total a.data b.data⟩

instance : IsTrans String (fun a b => pyStrLe a b = true) :=
  ⟨fun a b c => charsLe_trans a.data b.data c.data⟩

instance : IsAntisymm String (fun a b => pyStrLe a b = true) :=
  ⟨fun a b h1 h2 => str_data_inj (charsLe_antisymm a.data b.data h1 h2)⟩

/-- Python `sorted` only depends on the multiset of strings: permuting the
input leaves the sorted output unchanged. -/
theorem sortStrings_perm_eq {l1 l2 : List String} (h : l1.Perm l2) :
    sortStrings l1 = sortStrings l2 :=
  List.eq_of_perm_of_sorted
    ((List.perm_insertionSort _ l1).trans (h.trans (List.perm_insertionSort _ l2).symm))
    (List.sorted_insertionSort _ l1) (List.sorted_insertionSort _ l2)

theorem lookup_insert_self (m : CacheMap) (k : String) (v : String × ℚ) :
    lookupMap (insertMap m k v) k = some v := by
  induction m with
  | nil => simp [insertMap, lookupMap]
  | cons e rest ih =>
    by_cases h : e.1 = k
    · simp [insertMap, lookupMap, h]
    · simp [insertMap, lookupMap, h, ih]

theorem countP_partition {α : Type} (p : α → Bool) (l : List α) :
    l.countP p + l.countP (fun a => !(p a)) = l.length := by
  induction l with
  | nil => simp
  | cons x t ih => by_cases h : p x <;> simp [List.countP_cons, h] <;> omega

theorem normalizedTools_eq_dictsOf (ts : List PyVal) :
    normalizedTools ts = (dictsOf ts).map (fun kvs => dumps (PyVal.dict kvs)) := by
  induction ts with
  | nil => rfl
  | cons x t ih => cases x <;> simp [normalizedTools, dictsOf, ih]

/-! Claim theorems. -/

/-- C1 counterexample: permuting two distinct tools changes the canonical
pre-hash string, hence the fingerprint.  The per-tool canonical strings are
serialized in input order — `json.dumps(normalized_tools, sort_keys=True)`
does not reorder the elements of a list, `sort_keys` only affects dict
keys — so `tools=[A, B]` and `tools=[B, A]` hash differently. -/
theorem C1_counterexample :
    _compute_prefix_hash "gemini-2.5-pro" none
        (some [PyVal.dict [("name", PyVal.str "a")], PyVal.dict [("name", PyVal.str "b")]])
        none ≠
      _compute_prefix_hash "gemini-2.5-pro" none
        (some [PyVal.dict [("name", PyVal.str "b")], PyVal.dict [("name", PyVal.str "a")]])
        none := by
  decide

/-- C1 (amended): the fingerprint depends on the `tools` list exactly through
the emptiness of the list and the sequence of per-tool canonical strings in
input order.  Hence reordering the fields inside a tool dict never changes
the fingerprint, and permuting the tools themselves leaves the fingerprint
unchanged only when the resulting sequence of per-tool canonical strings is
unchanged (the strings are not sorted as a set). -/
theorem C1_tools_canonical_order (model : String) (si : Option String)
    (ds : Option (List String)) (ts1 ts2 : List PyVal)
    (hn : normalizedTools ts1 = normalizedTools ts2)
    (he : ts1.isEmpty = ts2.isEmpty) :
    _compute_prefix_hash model si (some ts1) ds =
      _compute_prefix_hash model si (some ts2) ds := by
  have ht : toolSegs (some ts1) = toolSegs (some ts2) := by
    simp only [toolSegs]
    rw [hn, he]
  simp [_compute_prefix_hash, ht]

/-- C1 witness: reordering the two fields inside a single tool leaves the
fingerprint unchanged. -/
theorem C1_witness :
    _compute_prefix_hash "m" none
        (some [PyVal.dict [("a", PyVal.str "1"), ("b", PyVal.str "2")]]) none =
      _compute_prefix_hash "m" none
        (some [PyVal.dict [("b", PyVal.str "2"), ("a", PyVal.str "1")]]) none :=
  C1_tools_canonical_order "m" none none _ _ (by decide) (by decide)

/-- C2 counterexample: the `"|"` delimiter can occur inside the raw system
instruction, so two distinct inputs — different system instruction, different
presence of the docs section — produce the *identical* pre-hash byte
sequence, and therefore the identical SHA-256 fingerprint. -/
theorem C2_counterexample :
    _compute_prefix_hash "m" (some "a|docs:[\"x\"]") none none =
      _compute_prefix_hash "m" (some "a") none (some ["x"]) := by
  decide

/-- C2 (amended): global injectivity of the pre-hash string fails (see the
counterexample), but varying one component while the others stay fixed does
change the fingerprint: distinct model names, distinct non-empty system
instructions, tool lists with distinct serialized `normalized_tools`
payloads, and doc lists with distinct serialized sorted-docs payloads all
yield distinct canonical pre-hash strings. -/
theorem C2_componentwise_injectivity :
    (∀ m1 m2 si ts ds, m1 ≠ m2 →
        _compute_prefix_hash m1 si ts ds ≠ _compute_prefix_hash m2 si ts ds) ∧
    (∀ m s1 s2 ts ds, s1.isEmpty = false → s2.isEmpty = false → s1 ≠ s2 →
        _compute_prefix_hash m (some s1) ts ds ≠
          _compute_prefix_hash m (some s2) ts ds) ∧
    (∀ m si ts1 ts2 ds, ts1.isEmpty = false → ts2.isEmpty = false →
        dumpsStrList (normalizedTools ts1) ≠ dumpsStrList (normalizedTools ts2) →
        _compute_prefix_hash m si (some ts1) ds ≠
          _compute_prefix_hash m si (some ts2) ds) ∧
    (∀ m si ts ds1 ds2, ds1.isEmpty = false → ds2.isEmpty = false →
        dumpsStrList (sortStrings ds1) ≠ dumpsStrList (sortStrings ds2) →
        _compute_prefix_hash m si ts (some ds1) ≠
          _compute_prefix_hash m si ts (some ds2)) := by
  refine ⟨?_, ?_, ?_, ?_⟩
  · intro m1 m2 si ts ds hne heq
    apply hne
    rw [hash_decomp, hash_decomp] at heq
    exact str_cancel_right _ heq
  · intro m s1 s2 ts ds h1 h2 hne heq
    apply hne
    rw [hash_decomp, hash_decomp] at heq
    simp only [sysSegs, h1, Bool.false_eq_true, if_false, h2, List.cons_append,
      joinTail] at heq
    exact seg_payload_cancel m "system:" _ heq
  · intro m si ts1 ts2 ds h1 h2 hne heq
    apply hne
    rw [hash_decomp, hash_decomp] at heq
    simp only [toolSegs, h1, h2, Bool.false_eq_true, if_false, List.append_assoc,
      List.cons_append, List.nil_append, joinTail_append, joinTail] at heq
    exact seg_payload_cancel₂ m _ "tools:" _ heq
  · intro m si ts ds1 ds2 h1 h2 hne heq
    apply hne
    rw [hash_decomp, hash_decomp] at heq
    simp only [docSegs, h1, h2, Bool.false_eq_true, if_false, List.append_assoc,
      List.cons_append, List.nil_append, joinTail_append, joinTail] at heq
    exact seg_payload_cancel₃ m _ _ "docs:" _ heq

/-- C2 witness: two distinct model names with no optional sections give
distinct fingerprints. -/
theorem C2_witness :
    _compute_prefix_hash "gemini-2.5-pro" none none none ≠
      _compute_prefix_hash "gemini-2.5-flash" none none none :=
  C2_componentwise_injectivity.1 "gemini-2.5-pro" "gemini-2.5-flash" none none none
    (by decide)

/-- C8: permuting the static docs leaves the fingerprint unchanged — the doc
strings are sorted before being serialized into the `docs:` segment. -/
theorem C8_docs_order_irrelevant (model : String) (si : Option String)
    (ts : Option (List PyVal)) {d1 d2 : List String} (h : d1.Perm d2) :
    _compute_prefix_hash model si ts (some d1) =
      _compute_prefix_hash model si ts (some d2) := by
  have hs : sortStrings d1 = sortStrings d2 := sortStrings_perm_eq h
  have he : d1.isEmpty = d2.isEmpty := by
    have hl := h.length_eq
    cases d1 <;> cases d2 <;> simp_all
  simp [_compute_prefix_hash, docSegs, hs, he]

/-- C8 witness: swapping two documents leaves the fingerprint unchanged. -/
theorem C8_witness :
    _compute_prefix_hash "m" none none (some ["b", "a"]) =
      _compute_prefix_hash "m" none none (some ["a", "b"]) :=
  C8_docs_order_irrelevant "m" none none (List.Perm.swap "a" "b" [])

/-- C9: elements of the `tools` list that are not dicts are silently dropped
by the `isinstance(tool, dict)` filter — two non-empty tool lists with the
same dict elements in the same relative order fingerprint identically
regardless of their non-dict elements. -/
theorem C9_non_dict_tools_ignored (model : String) (si : Option String)
    (ds : Option (List String)) (t1 t2 : List PyVal)
    (h1 : t1.isEmpty = false) (h2 : t2.isEmpty = false)
    (hd : dictsOf t1 = dictsOf t2) :
    _compute_prefix_hash model si (some t1) ds =
      _compute_prefix_hash model si (some t2) ds := by
  have hn : normalizedTools t1 = normalizedTools t2 := by
    rw [normalizedTools_eq_dictsOf, normalizedTools_eq_dictsOf, hd]
  simp [_compute_prefix_hash, toolSegs, hn, h1, h2]

/-- C9 witness: inserting a non-dict element (a bare string) in front of a
tool dict does not change the fingerprint. -/
theorem C9_witness :
    _compute_prefix_hash "m" none (some [PyVal.dict [("a", PyVal.str "1")]]) none =
      _compute_prefix_hash "m" none
        (some [PyVal.str "ignored", PyVal.dict [("a", PyVal.str "1")]]) none :=
  C9_non_dict_tools_ignored "m" none none _ _ (by decide) (by decide) rfl

/-- C3 counterexample: a record can be valid (present, expiry in the future)
while `get_or_create_prefix_cache` nevertheless contacts the provider and does
not return the stored handle: the hit check is the Python truthiness test
`if cached_name:`, so a stored empty-string handle is treated as a miss. -/
theorem C3_counterexample :
    _is_cache_valid [("m", ("", 100))] 0 "m" = true ∧
    _compute_prefix_hash "m" none none none = "m" ∧
    (get_or_create_prefix_cache [("m", ("", 100))] 0 true (some "new-handle") "m" []
        none none none none).create_calls = 1 := by
  decide

/-- C3 (amended): a stored record is valid iff it is present for the computed
fingerprint and the current time is strictly before its `expires_at`; on a
valid hit whose stored handle is a non-empty string, the call returns the
stored handle, issues no provider call, and leaves the registry unchanged.
(A valid record holding the empty-string handle is treated as a miss by the
`if cached_name:` truthiness test — see the counterexample.) -/
theorem C3_valid_hit_behaviour :
    (∀ (m : CacheMap) (now : ℚ) (k : String),
        _is_cache_valid m now k = true ↔
          ∃ p, lookupMap m k = some p ∧ now < p.2) ∧
    (∀ (m : CacheMap) (now : ℚ) (cr : Option String) (model : String)
        (contents : List PyVal) (si : Option String) (ts : Option (List PyVal))
        (ds : Option (List String)) (ttl : Option ℚ) (name : String) (e : ℚ),
        lookupMap m (_compute_prefix_hash model si ts ds) = some (name, e) →
        now < e → name.isEmpty = false →
        get_or_create_prefix_cache m now true cr model contents si ts ds ttl =
          ⟨some name, m, 0⟩) := by
  constructor
  · intro m now k
    unfold _is_cache_valid
    cases h : lookupMap m k with
    | none => simp [h]
    | some p => cases p with
      | mk name e => simp
  · intro m now cr model contents si ts ds ttl name e hlook hv hne
    have hvalid : _is_cache_valid m now (_compute_prefix_hash model si ts ds) = true := by
      simp [_is_cache_valid, hlook, hv]
    simp [get_or_create_prefix_cache, _get_cached_name, hvalid, hlook, hne]

/-- C3 witness: a valid record with a non-empty handle is returned unchanged
with zero provider calls. -/
theorem C3_witness :
    get_or_create_prefix_cache [("m", ("handle", 100))] 0 true none "m" []
        none none none none = ⟨some "handle", [("m", ("handle", 100))], 0⟩ :=
  C3_valid_hit_behaviour.2 [("m", ("handle", 100))] 0 none "m" [] none none none none
    "handle" 100 (by decide) (by decide) (by decide)

/-- C4: a successful creation stores
`expires_at = now + ttl - 300` with the TTL defaulting to 86400 s; a record
created with `ttl_seconds = 400` is valid at `now + 50` and expired at
`now + 150`; and once a stored record is expired, the next call for its
fingerprint issues a fresh provider create call. -/
theorem C4_expiry_policy :
    (∀ (m : CacheMap) (now : ℚ) (model : String) (contents : List PyVal)
        (si : Option String) (ts : Option (List PyVal)) (ds : Option (List String))
        (ttl : Option ℚ) (name : String),
        _reaches_create m now (_compute_prefix_hash model si ts ds) = true →
        lookupMap
            (get_or_create_prefix_cache m now true (some name) model contents si ts ds
              ttl).state (_compute_prefix_hash model si ts ds) =
          some (name, now + ttl.getD 86400 - 300)) ∧
    (∀ (m : CacheMap) (now : ℚ) (k name : String),
        _is_cache_valid (_store_cache_name m now k name 400) (now + 50) k = true) ∧
    (∀ (m : CacheMap) (now : ℚ) (k name : String),
        _is_cache_valid (_store_cache_name m now k name 400) (now + 150) k = false) ∧
    (∀ (m : CacheMap) (now2 : ℚ) (cr : Option String) (model : String)
        (contents : List PyVal) (si : Option String) (ts : Option (List PyVal))
        (ds : Option (List String)) (ttl : Option ℚ) (name : String) (e : ℚ),
        lookupMap m (_compute_prefix_hash model si ts ds) = some (name, e) →
        e ≤ now2 →
        (get_or_create_prefix_cache m now2 true cr model contents si ts ds
          ttl).create_calls = 1) := by
  refine ⟨?_, ?_, ?_, ?_⟩
  · intro m now model contents si ts ds ttl name hrc
    unfold _reaches_create at hrc
    cases hg : _get_cached_name m now (_compute_prefix_hash model si ts ds) with
    | none =>
      simp [get_or_create_prefix_cache, hg, _create_new, _store_cache_name,
        lookup_insert_self, _cache_expiry_buffer, _default_ttl]
    | some n =>
      rw [hg] at hrc
      have hrc2 : n.isEmpty = true := hrc
      simp [get_or_create_prefix_cache, hg, hrc2, _create_new, _store_cache_name,
        lookup_insert_self, _cache_expiry_buffer, _default_ttl]
  · intro m now k name
    simp only [_store_cache_name, _is_cache_valid, lookup_insert_self,
      _cache_expiry_buffer, decide_eq_true_eq]
    linarith
  · intro m now k name
    simp only [_store_cache_name, _is_cache_valid, lookup_insert_self,
      _cache_expiry_buffer, decide_eq_false_iff_not]
    linarith
  · intro m now2 cr model contents si ts ds ttl name e hlook hle
    have hval : _is_cache_valid m now2 (_compute_prefix_hash model si ts ds) = false := by
      simp only [_is_cache_valid, hlook, decide_eq_false_iff_not]
      linarith
    have hg : _get_cached_name m now2 (_compute_prefix_hash model si ts ds) = none := by
      simp [_get_cached_name, hval]
    cases cr <;> simp [get_or_create_prefix_cache, hg, _create_new]

/-- C4 witness: creating with `ttl_seconds = 400` at time 0 stores expiry
`0 + 400 - 300`. -/
theorem C4_witness :
    lookupMap
        (get_or_create_prefix_cache [] 0 true (some "h") "m" [] none none none
          (some 400)).state (_compute_prefix_hash "m" none none none) =
      some ("h", 0 + 400 - 300) :=
  C4_expiry_policy.1 [] 0 "m" [] none none none (some 400) "h" (by decide)

/-- C5: when the provider create call raises, the exception is swallowed, the
call returns `None`, exactly one provider call was made, and the registry is
exactly as before the call (nothing is stored or removed). -/
theorem C5_create_failure_degrades (m : CacheMap) (now : ℚ) (model : String)
    (contents : List PyVal) (si : Option String) (ts : Option (List PyVal))
    (ds : Option (List String)) (ttl : Option ℚ)
    (hrc : _reaches_create m now (_compute_prefix_hash model si ts ds) = true) :
    get_or_create_prefix_cache m now true none model contents si ts ds ttl =
      ⟨none, m, 1⟩ := by
  unfold _reaches_create at hrc
  cases hg : _get_cached_name m now (_compute_prefix_hash model si ts ds) with
  | none => simp [get_or_create_prefix_cache, hg, _create_new]
  | some n =>
    rw [hg] at hrc
    have hrc2 : n.isEmpty = true := hrc
    simp [get_or_create_prefix_cache, hg, hrc2, _create_new]

/-- C5 witness: a failing create on an empty registry returns `None` and
leaves the registry empty. -/
theorem C5_witness :
    get_or_create_prefix_cache [] 0 true none "m" [] none none none none =
      ⟨none, [], 1⟩ :=
  C5_create_failure_degrades [] 0 "m" [] none none none none (by decide)

/-- C6: when the provider delete succeeds, `invalidate_cache` removes exactly
the registry entries whose stored handle equals the given handle and returns
`True`; when the delete raises, the exception is swallowed, the registry is
untouched and the call returns `False`. -/
theorem C6_invalidate_behaviour :
    (∀ (m : CacheMap) (name : String),
        (invalidate_cache m true name).1 = true ∧
        ∀ e : String × String × ℚ,
          e ∈ (invalidate_cache m true name).2 ↔ e ∈ m ∧ e.2.1 ≠ name) ∧
    (∀ (m : CacheMap) (name : String), invalidate_cache m false name = (false, m)) := by
  constructor
  · intro m name
    constructor
    · rfl
    · intro e
      simp [invalidate_cache, List.mem_filter]
  · intro m name
    rfl

/-- C7: `get_cache_stats` partitions the records into valid and expired by
comparing each `expires_at` with the current time, so valid + expired = total;
with one record expired in the past and one valid in the future it reports
total 2, valid 1, expired 1.  The embedding of the method is a pure function
of the registry — it returns no new registry, so it can mutate nothing and in
particular evicts no expired record. -/
theorem C7_stats_partition :
    (∀ (m : CacheMap) (now : ℚ),
        (get_cache_stats m now).valid_caches + (get_cache_stats m now).expired_caches =
          (get_cache_stats m now).total_caches) ∧
    get_cache_stats [("k1", ("c1", 500)), ("k2", ("c2", 2000))] 1000 =
      ⟨2, 1, 1, ["k1", "k2"]⟩ := by
  constructor
  · intro m now
    simp only [get_cache_stats]
    exact countP_partition _ m
  · decide

/-- C10: if the resolved TTL is at most the 300 s safety buffer, the stored
record is expired at birth — `expires_at = now + ttl - 300 ≤ now` — so no
later call can see it as valid, and any later call for that fingerprint
issues a provider create call. -/
theorem C10_ttl_le_buffer_always_expired :
    (∀ (m : CacheMap) (now : ℚ) (k name : String) (ttl : ℚ), ttl ≤ 300 →
        lookupMap (_store_cache_name m now k name ttl) k =
          some (name, now + ttl - 300) ∧ now + ttl - 300 ≤ now) ∧
    (∀ (m : CacheMap) (now : ℚ) (k name : String) (ttl now2 : ℚ),
        ttl ≤ 300 → now ≤ now2 →
        _is_cache_valid (_store_cache_name m now k name ttl) now2 k = false) ∧
    (∀ (m : CacheMap) (now now2 : ℚ) (name : String) (ttl : ℚ) (cr : Option String)
        (model : String) (contents : List PyVal) (si : Option String)
        (ts : Option (List PyVal)) (ds : Option (List String)) (ttl2 : Option ℚ),
        ttl ≤ 300 → now ≤ now2 →
        (get_or_create_prefix_cache
            (_store_cache_name m now (_compute_prefix_hash model si ts ds) name ttl)
            now2 true cr model contents si ts ds ttl2).create_calls = 1) := by
  refine ⟨?_, ?_, ?_⟩
  · intro m now k name ttl httl
    refine ⟨?_, by linarith⟩
    simp [_store_cache_name, lookup_insert_self, _cache_expiry_buffer]
  · intro m now k name ttl now2 httl hnow
    simp only [_store_cache_name, _is_cache_valid, lookup_insert_self,
      _cache_expiry_buffer, decide_eq_false_iff_not]
    linarith
  · intro m now now2 name ttl cr model contents si ts ds ttl2 httl hnow
    have hval : _is_cache_valid
        (_store_cache_name m now (_compute_prefix_hash model si ts ds) name ttl) now2
        (_compute_prefix_hash model si ts ds) = false := by
      simp only [_store_cache_name, _is_cache_valid, lookup_insert_self,
        _cache_expiry_buffer, decide_eq_false_iff_not]
      linarith
    have hg : _get_cached_name
        (_store_cache_name m now (_compute_prefix_hash model si ts ds) name ttl) now2
        (_compute_prefix_hash model si ts ds) = none := by
      simp [_get_cached_name, hval]
    cases cr <;> simp [get_or_create_prefix_cache, hg, _create_new]

/-- C10 witness: a record stored with `ttl_seconds = 300` at time 0 carries
expiry `0 + 300 - 300 ≤ 0`. -/
theorem C10_witness :
    lookupMap (_store_cache_name [] 0 "k" "h" 300) "k" = some ("h", 0 + 300 - 300) ∧
      (0 : ℚ) + 300 - 300 ≤ 0 :=
  C10_ttl_le_buffer_always_expired.1 [] 0 "k" "h" 300 (by decide)

end GeminiCache
